import Mathlib

/-!
Verification of the `container_config_hash` Ansible module
(`edpm_ansible/ansible_plugins/modules/container_config_hash.py`).

Paths and Python strings are modelled as lists of characters (`Path`).
The module's path manipulation helpers (`os.path.dirname`, `os.path.join`,
`os.path.basename`, `os.path.splitext`, `str.rstrip`, `str.strip`,
`str.startswith`, `str.split`) are embedded faithfully following the
CPython `posixpath` / `str` semantics.  Parsed JSON documents are
modelled by `JValue`; JSON objects are association lists in insertion
order, matching the key order and in-place update behaviour of Python
dicts.  Filesystem reads are modelled as functions from paths to
optional contents; filesystem mutations are modelled as explicit
`Effect` values.  `module.fail_json` and uncaught Python exceptions are
modelled by the `RunError` type.
-/

namespace ContainerConfigHash

/-- A Python string / filesystem path, as a list of characters. -/
abbrev Path := List Char

/-- Python `s.startswith(pre)`. -/
def pyStartswith (s pre : Path) : Bool := pre.isPrefixOf s

/-- Python `s.rstrip(os.path.sep)` with `os.path.sep = '/'`:
drop every trailing `'/'`. -/
def rstripSlash (s : Path) : Path := (s.reverse.dropWhile (fun c => c = '/')).reverse

/-- The head part `p[:i]` taken by `posixpath.dirname`, where `i` is the
index one past the last `'/'` of `p`: everything up to and including the
last slash (empty when `p` has no slash). -/
def splitHead (s : Path) : Path := (s.reverse.dropWhile (fun c => c ≠ '/')).reverse

/-- Python `os.path.dirname` (POSIX): take everything up to and
including the last slash, then strip trailing slashes unless the head is
empty or consists only of slashes. -/
def dirname (s : Path) : Path :=
  let head := splitHead s
  if head ≠ [] ∧ head.any (fun c => c ≠ '/') = true then rstripSlash head else head

/-- Python `os.path.join a b` (POSIX) for the case used by the module
(joining one component `b`): if `b` is absolute it wins; otherwise append
with a separator unless `a` is empty or already ends with one. -/
def pathJoin (a b : Path) : Path :=
  if b.head? = some '/' then b
  else if a = [] ∨ a.getLast? = some '/' then a ++ b
  else a ++ '/' :: b

/-- Python `os.path.basename` (POSIX): the part after the last slash. -/
def pyBasename (s : Path) : Path := (s.reverse.takeWhile (fun c => c ≠ '/')).reverse

/-- The root component of Python `os.path.splitext`: split off the part
from the last dot, provided some earlier character of the name is not a
dot (so purely-dotted leading names such as `.bashrc` are not split).
The module applies this to a basename, which contains no slash. -/
def splitextRoot (s : Path) : Path :=
  let tailLen := (s.reverse.takeWhile (fun c => c ≠ '.')).length
  if tailLen < s.length then
    let root := s.take (s.length - tailLen - 1)
    if root.any (fun c => c ≠ '.') = true then root else s
  else s

/-- Python `s.split(":")[0]`: the part of `s` before the first colon. -/
def splitColonHead (s : Path) : Path := s.takeWhile (fun c => c ≠ ':')

/-- Python `s.strip('\n')`: drop newline characters from both ends. -/
def stripNl (s : Path) : Path :=
  (((s.dropWhile (fun c => c = '\n')).reverse.dropWhile (fun c => c = '\n'))).reverse

/-- Result of `_get_config_base`: either the found config base, or the
`fail_json` message payload `'Could not find config base for: {volume}
with prefix: {...}'`, which names the offending volume and the
configured volume-root. -/
inductive BaseResult where
  | found (base : Path)
  | failMsg (volume volRoot : Path)
deriving DecidableEq

/-- The crawl loop of `_get_config_base`, with explicit fuel: `none`
models non-termination of the Python `while` loop (the loop has no
bound of its own).  `pfx` is the unstripped `prefix` argument used in
the loop condition, `base` is `prefix.rstrip(os.path.sep)` and
`baseGen` is `os.path.join(base, 'ansible-generated')`. -/
def getConfigBaseAux (pfx base baseGen volume : Path) : Nat → Path → Option BaseResult
  | 0, _ => none
  | n + 1, path =>
    if pyStartswith path pfx = true then
      if dirname path = base ∨ dirname path = baseGen then some (.found path)
      else getConfigBaseAux pfx base baseGen volume n (dirname path)
    else some (.failMsg volume pfx)

/-- `_get_config_base(prefix, volume)` with the given fuel. -/
def getConfigBase (fuel : Nat) (pfx volume : Path) : Option BaseResult :=
  getConfigBaseAux pfx (rstripSlash pfx)
    (pathJoin (rstripSlash pfx) ("ansible-generated".data)) volume fuel volume

end ContainerConfigHash

namespace ContainerConfigHash

/-- A parsed JSON document (the result of `json.loads`).  Objects are
association lists in insertion order, as Python dicts are. -/
inductive JValue where
  | null
  | bool (b : Bool)
  | num (n : Int)
  | str (s : Path)
  | arr (items : List JValue)
  | obj (fields : List (Path × JValue))

/-- Python dict lookup on an association list (keys are unique in dicts
produced by `json.loads`; we return the first match). -/
def assocGet (l : List (Path × JValue)) (k : Path) : Option JValue :=
  match l with
  | [] => none
  | (k', v) :: rest => if k' = k then some v else assocGet rest k

/-- Python `d.get(k, default)`. -/
def assocGetD (l : List (Path × JValue)) (k : Path) (d : JValue) : JValue :=
  (assocGet l k).getD d

/-- Python dict assignment `d[k] = v`: update the existing binding in
place (keeping its position), or append a new one. -/
def assocSet (l : List (Path × JValue)) (k : Path) (v : JValue) : List (Path × JValue) :=
  match l with
  | [] => [(k, v)]
  | (k', v') :: rest => if k' = k then (k, v) :: rest else (k', v') :: assocSet rest k v

/-- Uncaught Python exceptions that the module can raise. -/
inductive PyExn where
  | attributeError
  | typeError

/-- How a run can abort: the two `fail_json` calls (with their message
payloads), an uncaught Python exception, or divergence of the crawl
loop (modelled as fuel exhaustion). -/
inductive RunError where
  | couldNotFindBase (volume volRoot : Path)
  | errorFetchingVolumes (volRoot : Path) (config : JValue)
  | raised (e : PyExn)
  | fuelExhausted

/-- Result of a piece of module code: a value, or an abort. -/
inductive Outcome (α : Type) where
  | ok (a : α)
  | err (e : RunError)

/-- Ascending lexicographic order on Python strings (character lists),
as used by Python `sorted`: compare by code point, a proper prefix
sorts first. -/
def pathLe : Path → Path → Bool
  | [], _ => true
  | _ :: _, [] => false
  | a :: s, b :: t => if a < b then true else if b < a then false else pathLe s t

/-- `pathLe` as a relation. -/
def PathLe (x y : Path) : Prop := pathLe x y = true

instance : DecidableRel PathLe := fun x y => inferInstanceAs (Decidable (pathLe x y = true))

/-- Python `sorted` on a list of strings: some sort of the list that is
ascending with respect to `PathLe`; since `PathLe` is total, transitive
and antisymmetric, every correct sort yields the same list, so insertion
sort is a faithful model. -/
def sortPaths (l : List Path) : List Path := List.insertionSort PathLe l

/-- Python iteration `for v in x` over a parsed JSON value: a list
yields its items, a string yields its characters as one-character
strings, a dict yields its keys; numbers, booleans and `None` are not
iterable (`TypeError`). -/
def pyIter : JValue → Option (List JValue)
  | .arr items => some items
  | .str s => some (s.map (fun c => .str [c]))
  | .obj fields => some (fields.map (fun kv => .str kv.1))
  | _ => none

/-- One qualifying element of the comprehension in
`_match_config_volumes`: evaluate `v.startswith(prefix)` (an
`AttributeError` if `v` is not a string) and, when it holds,
`_get_config_base(prefix, v.split(":")[0])`.  Fuel for each crawl is
one more than the source's length, which suffices whenever the crawl
terminates at all. -/
def resolveVolumes (pfx : Path) : List JValue → Outcome (List Path)
  | [] => .ok []
  | v :: rest =>
    match v with
    | .str s =>
      if pyStartswith s pfx = true then
        match getConfigBase ((splitColonHead s).length + 1) pfx (splitColonHead s) with
        | some (.found b) =>
          match resolveVolumes pfx rest with
          | .ok bs => .ok (b :: bs)
          | .err e => .err e
        | some (.failMsg vol root) => .err (.couldNotFindBase vol root)
        | none => .err .fuelExhausted
      else resolveVolumes pfx rest
    | _ => .err (.raised .attributeError)

/-- The body of `_match_config_volumes` applied to the value of the
`volumes` field. -/
def matchVolumesValue (pfx : Path) (volumes : JValue) : Outcome (List Path) :=
  match pyIter volumes with
  | none => .err (.raised .typeError)
  | some items =>
    match resolveVolumes pfx items with
    | .ok bases => .ok (sortPaths bases)
    | .err e => .err e

/-- `_match_config_volumes(config)`: `config.get('volumes', [])` raises
`AttributeError` (caught, turned into `fail_json` naming the volume-root
and the config) exactly when the parsed document is not a dict; then the
comprehension resolves each qualifying volume source and the result is
sorted. -/
def matchConfigVolumes (pfx : Path) (config : JValue) : Outcome (List Path) :=
  match config with
  | .obj fields => matchVolumesValue pfx (assocGetD fields ("volumes".data) (.arr []))
  | other => .err (.errorFetchingVolumes pfx other)

/-- `_get_config_hash(config_volume)`: read `<config_volume>.md5sum`
when it exists, stripping newlines from both ends; `digests` is the
filesystem restricted to reads (`none` models a missing file, where the
function falls through and returns Python `None`). -/
def getConfigHash (digests : Path → Option Path) (configVolume : Path) : Option Path :=
  match digests (configVolume ++ (".md5sum".data)) with
  | some content => some (stripNl content)
  | none => none

/-- The elements produced by Python `filter(None, hashes)`: drop falsy
values, i.e. both `None` (missing digest file) and the empty string
(digest file whose content strips to nothing). -/
def pyFilterNone (l : List (Option Path)) : List Path :=
  l.filterMap (fun h =>
    match h with
    | some s => if s = [] then none else some s
    | none => none)

/-- Truthiness of the Python 3 value `filter(None, config_hashes)` as
tested by `if config_hashes is not None and config_hashes:`.  A
`filter` object defines neither `__bool__` nor `__len__`, so `bool()`
of it is `True` no matter how many elements it would yield; the guard
is therefore constant. -/
def filterObjectTruthy (_elements : List Path) : Bool := true

/-- Python `'-'.join(l)`. -/
def joinDash : List Path → Path
  | [] => []
  | [s] => s
  | s :: rest => s ++ '-' :: joinDash rest

/-- A filesystem mutation performed by the module: `open(path,
'wb').write(json.dumps(content, indent=i))`, `os.chmod(path, mode)`, or
`os.remove(path)`. -/
inductive Effect where
  | write (path : Path) (content : JValue) (indent : Nat)
  | chmod (path : Path) (mode : Nat)
  | removeFile (path : Path)

/-- The mutations of `_update_container_config(path, config)`: rewrite
the whole descriptor as JSON with `indent=2`, then `chmod 0o600`
(384). -/
def updateContainerConfigEffects (path : Path) (config : JValue) : List Effect :=
  [.write path config 2, .chmod path 384]

/-- Reading the stored hash (lines 203 and 216-218): `old_config_hash`
is `''` unless `'environment'` is a key of the descriptor, in which case
`environment.get('EDPM_CONFIG_HASH', '')` is read — an uncaught
`AttributeError` when the `environment` value is not a dict. -/
def readOldHash (fields : List (Path × JValue)) : Outcome JValue :=
  match assocGet fields ("environment".data) with
  | none => .ok (.str [])
  | some (.obj envFields) => .ok (assocGetD envFields ("EDPM_CONFIG_HASH".data) (.str []))
  | some _ => .err (.raised .typeError)

/-- Lines 230-233: create `environment` as an empty dict when the key is
absent, then assign `environment['EDPM_CONFIG_HASH']` — an uncaught
`TypeError` when a present `environment` value does not support item
assignment (it is known to be a dict whenever `readOldHash`
succeeded beforehand). -/
def setEnvHashFields (fields : List (Path × JValue)) (h : Path) :
    Outcome (List (Path × JValue)) :=
  match assocGet fields ("environment".data) with
  | none => .ok (assocSet fields ("environment".data)
      (.obj [(("EDPM_CONFIG_HASH".data), .str h)]))
  | some (.obj envFields) => .ok (assocSet fields ("environment".data)
      (.obj (assocSet envFields ("EDPM_CONFIG_HASH".data) (.str h))))
  | some _ => .err (.raised .typeError)

/-- Python `config_hash == old_config_hash` where `config_hash` is a
string and `old_config_hash` an arbitrary JSON value: equal strings
compare equal, any other comparison is `False`. -/
def jEqStr (s : Path) (v : JValue) : Bool :=
  match v with
  | .str t => s == t
  | _ => false

/-- The per-descriptor outcome of one iteration of the `_update_hashes`
loop: whether `results['changed']` was set, the filesystem mutations
performed, and the descriptor document after the iteration (`none` for
a removed legacy descriptor, whose content is never consulted). -/
structure StepOut where
  changed : Bool
  effects : List Effect
  newConfig : Option JValue

/-- Lines 210-234 of `_update_hashes` for one active descriptor:
resolve the volumes, read the digests, keep the truthy ones, read the
stored hash, then — the `filter`-object guard being constantly true —
join with `'-'` and compare; on difference set
`environment.EDPM_CONFIG_HASH` and rewrite the descriptor. -/
def processActive (pfx : Path) (digests : Path → Option Path) (path : Path)
    (parsed : JValue) : Outcome StepOut :=
  match parsed with
  | .obj fields =>
    match matchConfigVolumes pfx (.obj fields) with
    | .err e => .err e
    | .ok configVolumes =>
      let retained := pyFilterNone (configVolumes.map (getConfigHash digests))
      match readOldHash fields with
      | .err e => .err e
      | .ok oldHash =>
        if filterObjectTruthy retained = true then
          if jEqStr (joinDash retained) oldHash = true then
            .ok ⟨false, [], some (.obj fields)⟩
          else
            match setEnvHashFields fields (joinDash retained) with
            | .err e => .err e
            | .ok newFields =>
              .ok ⟨true, updateContainerConfigEffects path (.obj newFields),
                   some (.obj newFields)⟩
        else .ok ⟨false, [], some (.obj fields)⟩
  | other => .err (.errorFetchingVolumes pfx other)

/-- `_remove_file(path)`: remove the file only when it exists (removing
an absent file is a no-op). -/
def removeFileEffects (fileExists : Path → Bool) (path : Path) : List Effect :=
  if fileExists path = true then [.removeFile path] else []

/-- One iteration of the `_update_hashes` loop for the discovered file
`path` whose parsed JSON content is `parsed`: legacy `hashed-*`
descriptors are removed without being read; every other descriptor is
processed by the matcher/aggregator/reconciler pipeline. -/
def processOne (pfx : Path) (digests : Path → Option Path) (fileExists : Path → Bool)
    (path : Path) (parsed : JValue) : Outcome StepOut :=
  if pyStartswith (splitextRoot (pyBasename path)) ("hashed-".data) = true then
    .ok ⟨false, removeFileEffects fileExists path, none⟩
  else processActive pfx digests path parsed

/-- The module's recognized options (`yaml.safe_load(DOCUMENTATION)
['options']`).  Only `config_vol_prefix` is ever read by
`ContainerConfigHashManager`. -/
structure ModuleArgs where
  checkMode : Bool
  configVolPrefix : Path
  debug : Bool
  step : Int

/-- Result of a whole run: the `changed` flag, the filesystem mutations
in order, and the first fatal error if the run aborted (mutations of
descriptors processed before the abort have already happened). -/
structure RunOut where
  changed : Bool
  effects : List Effect
  fatal : Option RunError

/-- The `_update_hashes` loop over the discovered descriptor files (in
discovery order), stopping at the first fatal error. -/
def runConfigs (pfx : Path) (digests : Path → Option Path) (fileExists : Path → Bool) :
    List (Path × JValue) → RunOut
  | [] => ⟨false, [], none⟩
  | (path, parsed) :: rest =>
    match processOne pfx digests fileExists path parsed with
    | .ok stepOut =>
      let r := runConfigs pfx digests fileExists rest
      ⟨stepOut.changed || r.changed, stepOut.effects ++ r.effects, r.fatal⟩
    | .err e => ⟨false, [], some e⟩

/-- `ContainerConfigHashManager.__init__` + `main`: of all the module
options only `config_vol_prefix` is consulted; in particular the
`check_mode` option and Ansible's check mode are never read, so the
run mutates the filesystem regardless of them. -/
def runManager (args : ModuleArgs) (digests : Path → Option Path)
    (fileExists : Path → Bool) (configs : List (Path × JValue)) : RunOut :=
  runConfigs args.configVolPrefix digests fileExists configs

/-- The per-element resolution of the matcher's comprehension, as a
partial function: the base when the element is a qualifying string
whose source resolves. -/
def resolveOpt (pfx : Path) (v : JValue) : Option Path :=
  match v with
  | .str s =>
    if pyStartswith s pfx = true then
      match getConfigBase ((splitColonHead s).length + 1) pfx (splitColonHead s) with
      | some (.found b) => some b
      | _ => none
    else none
  | _ => none

/-- The default volume-root `/var/lib/config-data`. -/
def cdRoot : Path := "/var/lib/config-data".data

/-- A concrete discovered descriptor path. -/
def novaJsonPath : Path := "/var/lib/edpm-config/container-startup-config/nova.json".data

/-- The end-to-end scenario descriptor: one config volume, no
`environment` field. -/
def novaDesc : JValue :=
  .obj [(("volumes".data), .arr [.str ("/var/lib/config-data/nova:/etc/nova:ro".data)])]

/-- Digest files for the scenario: `/var/lib/config-data/nova.md5sum`
containing `"abc123\n"`. -/
def novaDigests : Path → Option Path := fun p =>
  if p = ("/var/lib/config-data/nova.md5sum".data) then some ("abc123\n".data) else none

/-- The scenario descriptor after reconciliation: `environment` created
with `EDPM_CONFIG_HASH` set to `abc123`. -/
def novaUpdated : JValue :=
  .obj [(("volumes".data), .arr [.str ("/var/lib/config-data/nova:/etc/nova:ro".data)]),
        (("environment".data), .obj [(("EDPM_CONFIG_HASH".data), .str ("abc123".data))])]

/-- A descriptor with a stored hash and no matching config volume. -/
def staleHashDesc : JValue :=
  .obj [(("environment".data), .obj [(("EDPM_CONFIG_HASH".data), .str ("deadbeef".data))])]

/-- `staleHashDesc` after the buggy rewrite: hash replaced by `''`. -/
def staleHashRewritten : JValue :=
  .obj [(("environment".data), .obj [(("EDPM_CONFIG_HASH".data), .str [])])]

/-- Module arguments with the check-mode flag set. -/
def argsCheckModeOn : ModuleArgs := ⟨true, cdRoot, false, 6⟩

/-- The same module arguments with the check-mode flag clear. -/
def argsCheckModeOff : ModuleArgs := ⟨false, cdRoot, false, 6⟩

end ContainerConfigHash

namespace ContainerConfigHash

theorem pathLe_total : ∀ x y : Path, pathLe x y = true ∨ pathLe y x = true := by
  intro x
  induction x with
  | nil => intro y; left; rfl
  | cons a s ih =>
    intro y
    cases y with
    | nil => right; rfl
    | cons b t =>
      rcases lt_trichotomy a b with h | h | h
      · left; simp [pathLe, h]
      · subst h
        rcases ih t with ht | ht
        · left; simp [pathLe, lt_irrefl, ht]
        · right; simp [pathLe, lt_irrefl, ht]
      · right; simp [pathLe, h]

theorem pathLe_trans : ∀ x y z : Path, pathLe x y = true → pathLe y z = true → pathLe x z = true := by
  intro x
  induction x with
  | nil => intro y z _ _; rfl
  | cons a s ih =>
    intro y z hxy hyz
    cases y with
    | nil => simp [pathLe] at hxy
    | cons b t =>
      cases z with
      | nil => simp [pathLe] at hyz
      | cons c u =>
        simp only [pathLe] at hxy hyz ⊢
        rcases lt_trichotomy a b with hab | hab | hab
        · rcases lt_trichotomy b c with hbc | hbc | hbc
          · simp [lt_trans hab hbc]
          · subst hbc; simp [hab]
          · simp [hab, not_lt_of_lt hab] at hxy
            rcases lt_trichotomy a c with hac | hac | hac
            · simp [hac]
            · simp [hbc, not_lt_of_lt hbc] at hyz
            · simp [hbc, not_lt_of_lt hbc] at hyz
        · subst hab
          rcases lt_trichotomy a c with hac | hac | hac
          · simp [hac]
          · subst hac
            simp [lt_irrefl] at hxy hyz ⊢
            exact ih t u hxy hyz
          · simp [not_lt_of_lt hac, hac] at hyz
        · simp [hab, not_lt_of_lt hab] at hxy

theorem pathLe_antisymm : ∀ x y : Path, pathLe x y = true → pathLe y x = true → x = y := by
  intro x
  induction x with
  | nil => intro y _ hyx; cases y with
    | nil => rfl
    | cons b t => simp [pathLe] at hyx
  | cons a s ih =>
    intro y hxy hyx
    cases y with
    | nil => simp [pathLe] at hxy
    | cons b t =>
      simp only [pathLe] at hxy hyx
      rcases lt_trichotomy a b with h | h | h
      · simp [h, not_lt_of_lt h] at hyx
      · subst h
        simp [lt_irrefl] at hxy hyx
        rw [ih t hxy hyx]
      · simp [h, not_lt_of_lt h] at hxy


end ContainerConfigHash

namespace ContainerConfigHash

theorem assocGet_assocSet_self (l : List (Path × JValue)) (k : Path) (v : JValue) :
    assocGet (assocSet l k v) k = some v := by
  induction l with
  | nil => simp [assocSet, assocGet]
  | cons kv rest ih =>
    obtain ⟨k', v'⟩ := kv
    by_cases h : k' = k
    · subst h; simp [assocSet, assocGet]
    · simp [assocSet, assocGet, h, ih]

theorem assocGet_assocSet_ne (l : List (Path × JValue)) (k k' : Path) (v : JValue)
    (h : k' ≠ k) : assocGet (assocSet l k' v) k = assocGet l k := by
  induction l with
  | nil => simp [assocSet, assocGet, h]
  | cons kv rest ih =>
    obtain ⟨k1, v1⟩ := kv
    by_cases h1 : k1 = k'
    · subst h1; simp [assocSet, assocGet, h]
    · simp [assocSet, assocGet, h1, ih]

theorem length_rstripSlash_le (s : Path) : (rstripSlash s).length ≤ s.length := by
  simpa [rstripSlash] using
    List.Sublist.length_le (List.dropWhile_sublist (fun c => c = '/') (l := s.reverse))

theorem dirname_lt_or_slash (s : Path) :
    (dirname s).length < s.length ∨ ∀ c ∈ s, c = '/' := by
  cases s using List.reverseRecOn with
  | nil => right; simp
  | append_singleton l c =>
    by_cases hc : c = '/'
    · subst hc
      have hsh : splitHead (l ++ ['/']) = l ++ ['/'] := by
        simp [splitHead, List.dropWhile_cons]
      by_cases hany : (l ++ ['/']).any (fun c => c ≠ '/') = true
      · left
        have hcond : (l ++ ['/']) ≠ [] ∧ ((l ++ ['/']).any (fun c => c ≠ '/')) = true :=
          ⟨by simp, hany⟩
        have : dirname (l ++ ['/']) = rstripSlash (l ++ ['/']) := by
          show (if splitHead (l ++ ['/']) ≠ [] ∧
                  ((splitHead (l ++ ['/'])).any (fun c => c ≠ '/')) = true
                then rstripSlash (splitHead (l ++ ['/'])) else splitHead (l ++ ['/']))
              = rstripSlash (l ++ ['/'])
          rw [hsh, if_pos hcond]
        rw [this]
        have h2 : rstripSlash (l ++ ['/']) = (l.reverse.dropWhile (fun c => c = '/')).reverse := by
          simp [rstripSlash, List.dropWhile_cons]
        rw [h2]
        have := List.Sublist.length_le (List.dropWhile_sublist (fun c => c = '/') (l := l.reverse))
        simp only [List.length_reverse] at this ⊢
        simp [List.length_append]
        omega
      · right
        intro x hx
        by_contra hne
        apply hany
        simp only [List.any_eq_true]
        exact ⟨x, hx, by simpa using hne⟩
    · left
      have hsh : (splitHead (l ++ [c])).length ≤ l.length := by
        have : splitHead (l ++ [c]) = (l.reverse.dropWhile (fun x => x ≠ '/')).reverse := by
          simp [splitHead, List.dropWhile_cons, hc]
        rw [this]
        simpa using
          List.Sublist.length_le (List.dropWhile_sublist (fun x => x ≠ '/') (l := l.reverse))
      have hlen : (dirname (l ++ [c])).length ≤ (splitHead (l ++ [c])).length := by
        rw [dirname]
        split
        · exact le_trans (length_rstripSlash_le _) (le_refl _)
        · exact le_refl _
      simp only [List.length_append, List.length_cons, List.length_nil]
      omega

end ContainerConfigHash

namespace ContainerConfigHash

theorem exists_nonslash_of_rstrip_ne (s : Path) (h : rstripSlash s ≠ []) :
    ∃ c ∈ s, c ≠ '/' := by
  by_contra hall
  push_neg at hall
  apply h
  have : ∀ c ∈ s.reverse, c = '/' := by
    intro c hc
    exact hall c (List.mem_reverse.mp hc)
  simp only [rstripSlash]
  rw [List.dropWhile_eq_nil_iff.mpr]
  · rfl
  · intro x hx
    simpa using this x hx

theorem getConfigBaseAux_found (pfx base baseGen volume : Path) :
    ∀ (n : Nat) (path b : Path),
      getConfigBaseAux pfx base baseGen volume n path = some (.found b) →
      dirname b = base ∨ dirname b = baseGen := by
  intro n
  induction n with
  | zero => intro path b h; simp [getConfigBaseAux] at h
  | succ n ih =>
    intro path b h
    rw [getConfigBaseAux] at h
    by_cases hs : pyStartswith path pfx = true
    · rw [if_pos hs] at h
      by_cases hstop : dirname path = base ∨ dirname path = baseGen
      · rw [if_pos hstop] at h
        have : path = b := by
          injection h with h'; injection h' with h''
        subst this
        exact hstop
      · rw [if_neg hstop] at h
        exact ih (dirname path) b h
    · rw [if_neg hs] at h
      injection h with h'
      exact absurd h' (by intro hx; cases hx)

theorem getConfigBaseAux_failMsg (pfx base baseGen volume : Path) :
    ∀ (n : Nat) (path v p : Path),
      getConfigBaseAux pfx base baseGen volume n path = some (.failMsg v p) →
      v = volume ∧ p = pfx := by
  intro n
  induction n with
  | zero => intro path v p h; simp [getConfigBaseAux] at h
  | succ n ih =>
    intro path v p h
    rw [getConfigBaseAux] at h
    by_cases hs : pyStartswith path pfx = true
    · rw [if_pos hs] at h
      by_cases hstop : dirname path = base ∨ dirname path = baseGen
      · rw [if_pos hstop] at h
        injection h with h'
        cases h'
      · rw [if_neg hstop] at h
        exact ih (dirname path) v p h
    · rw [if_neg hs] at h
      injection h with h'
      injection h' with h1 h2
      exact ⟨h1.symm, h2.symm⟩

theorem getConfigBaseAux_isSome (pfx base baseGen volume : Path)
    (c : Char) (hc : c ∈ pfx) (hcs : c ≠ '/') :
    ∀ (n : Nat) (path : Path), path.length < n →
      (getConfigBaseAux pfx base baseGen volume n path).isSome = true := by
  intro n
  induction n with
  | zero => intro path h; omega
  | succ n ih =>
    intro path hlen
    rw [getConfigBaseAux]
    by_cases hs : pyStartswith path pfx = true
    · rw [if_pos hs]
      by_cases hstop : dirname path = base ∨ dirname path = baseGen
      · rw [if_pos hstop]; rfl
      · rw [if_neg hstop]
        apply ih
        have hpref : pfx <+: path := by
          have := List.isPrefixOf_iff_prefix.mp hs
          exact this
        have hmem : c ∈ path := hpref.subset hc
        rcases dirname_lt_or_slash path with hlt | hslash
        · omega
        · exact absurd (hslash c hmem) hcs
    · rw [if_neg hs]; rfl

end ContainerConfigHash

namespace ContainerConfigHash

/-- C1: for every volume source path starting with the configured
volume-root, whenever base resolution returns a base, the base's parent
directory equals the separator-stripped root or equals that root joined
with `ansible-generated`; in particular, with root
`/var/lib/config-data`, source `/var/lib/config-data/nova/etc/nova/nova.conf`
resolves to `/var/lib/config-data/nova`, and source
`/var/lib/config-data/ansible-generated/nova/etc/nova.conf` resolves to
`/var/lib/config-data/ansible-generated/nova`. -/
theorem c1_base_resolution :
    (∀ (pfx volume : Path) (fuel : Nat) (b : Path),
        getConfigBase fuel pfx volume = some (.found b) →
        dirname b = rstripSlash pfx ∨
          dirname b = pathJoin (rstripSlash pfx) ("ansible-generated".data)) ∧
    getConfigBase 100 ("/var/lib/config-data".data)
        ("/var/lib/config-data/nova/etc/nova/nova.conf".data)
      = some (.found ("/var/lib/config-data/nova".data)) ∧
    getConfigBase 100 ("/var/lib/config-data".data)
        ("/var/lib/config-data/ansible-generated/nova/etc/nova.conf".data)
      = some (.found ("/var/lib/config-data/ansible-generated/nova".data)) := by
  refine ⟨?_, rfl, rfl⟩
  intro pfx volume fuel b h
  exact getConfigBaseAux_found pfx (rstripSlash pfx)
    (pathJoin (rstripSlash pfx) ("ansible-generated".data)) volume fuel volume b h

/-- Witness for C1 at the first concrete example of the claim. -/
theorem c1_base_resolution_witness :
    dirname ("/var/lib/config-data/nova".data)
        = rstripSlash ("/var/lib/config-data".data) ∨
      dirname ("/var/lib/config-data/nova".data)
        = pathJoin (rstripSlash ("/var/lib/config-data".data)) ("ansible-generated".data) :=
  c1_base_resolution.1 ("/var/lib/config-data".data)
    ("/var/lib/config-data/nova/etc/nova/nova.conf".data) 100
    ("/var/lib/config-data/nova".data) (by rfl)

/-- C5: for every volume-root that is non-empty after stripping trailing
separators and every volume source starting with it, the crawl
terminates within `|volume| + 1` iterations: it yields either a found
base or the `fail_json` error, and the error names exactly the offending
volume and the configured root. -/
theorem c5_termination (pfx volume : Path)
    (h1 : rstripSlash pfx ≠ [])
    (_h2 : pyStartswith volume pfx = true) :
    ∃ r : BaseResult, getConfigBase (volume.length + 1) pfx volume = some r ∧
      ∀ v p, r = BaseResult.failMsg v p → v = volume ∧ p = pfx := by
  obtain ⟨c, hc, hcs⟩ := exists_nonslash_of_rstrip_ne pfx h1
  have hsome := getConfigBaseAux_isSome pfx (rstripSlash pfx)
    (pathJoin (rstripSlash pfx) ("ansible-generated".data)) volume c hc hcs
    (volume.length + 1) volume (by omega)
  rw [getConfigBase]
  obtain ⟨r, hr⟩ := Option.isSome_iff_exists.mp hsome
  refine ⟨r, hr, ?_⟩
  intro v p hfail
  subst hfail
  exact getConfigBaseAux_failMsg pfx (rstripSlash pfx)
    (pathJoin (rstripSlash pfx) ("ansible-generated".data)) volume
    (volume.length + 1) volume v p hr

/-- Witness for C5 at the volume-root `/var/lib/config-data` and the
source `/var/lib/config-data/nova`. -/
theorem c5_termination_witness :
    rstripSlash ("/var/lib/config-data".data) ≠ [] ∧
    ∃ r : BaseResult,
      getConfigBase (("/var/lib/config-data/nova".data).length + 1)
          ("/var/lib/config-data".data) ("/var/lib/config-data/nova".data) = some r ∧
        ∀ v p, r = BaseResult.failMsg v p →
          v = ("/var/lib/config-data/nova".data) ∧ p = ("/var/lib/config-data".data) :=
  ⟨by decide, c5_termination ("/var/lib/config-data".data)
    ("/var/lib/config-data/nova".data) (by decide) (by decide)⟩

end ContainerConfigHash

namespace ContainerConfigHash

theorem resolveVolumes_ok_filterMap (pfx : Path) :
    ∀ (items : List JValue) (l : List Path),
      resolveVolumes pfx items = .ok l → l = items.filterMap (resolveOpt pfx) := by
  intro items
  induction items with
  | nil => intro l h; simp [resolveVolumes] at h ⊢; cases h; rfl
  | cons v rest ih =>
    intro l h
    cases v with
    | str s =>
      rw [resolveVolumes] at h
      by_cases hs : pyStartswith s pfx = true
      · rw [if_pos hs] at h
        cases hbase : getConfigBase ((splitColonHead s).length + 1) pfx (splitColonHead s) with
        | none => rw [hbase] at h; cases h
        | some r =>
          cases r with
          | found b =>
            rw [hbase] at h
            cases hrest : resolveVolumes pfx rest with
            | ok bs =>
              rw [hrest] at h
              cases h
              simp [List.filterMap_cons, resolveOpt, hs, hbase]
              exact ih bs hrest
            | err e => rw [hrest] at h; cases h
          | failMsg a b => rw [hbase] at h; cases h
      · rw [if_neg hs] at h
        simp [List.filterMap_cons, resolveOpt, hs]
        exact ih l h
    | null => simp [resolveVolumes] at h
    | bool b => simp [resolveVolumes] at h
    | num n => simp [resolveVolumes] at h
    | arr a => simp [resolveVolumes] at h
    | obj o => simp [resolveVolumes] at h

end ContainerConfigHash

namespace ContainerConfigHash

theorem matchVolumesValue_ok_sorted (pfx : Path) (v : JValue) (l : List Path)
    (h : matchVolumesValue pfx v = .ok l) : l.Sorted PathLe := by
  rw [matchVolumesValue] at h
  cases hit : pyIter v with
  | none => rw [hit] at h; cases h
  | some items =>
    simp only [hit] at h
    cases hres : resolveVolumes pfx items with
    | ok bases =>
      simp only [hres] at h
      cases h
      exact @List.sorted_insertionSort Path PathLe _ ⟨pathLe_total⟩
        ⟨fun a b c => pathLe_trans a b c⟩ bases
    | err e => simp only [hres] at h; cases h

/-- C2 counterexample: two distinct volume mounts under the same config
base produce that base twice in the matcher's output — the list is not
deduplicated. -/
theorem c2_counterexample :
    matchConfigVolumes ("/var/lib/config-data".data)
        (.obj [(("volumes".data),
          .arr [.str ("/var/lib/config-data/nova/a:/x".data),
                .str ("/var/lib/config-data/nova/b:/y".data)])])
      = .ok [("/var/lib/config-data/nova".data), ("/var/lib/config-data/nova".data)] ∧
    ¬ ([("/var/lib/config-data/nova".data),
        ("/var/lib/config-data/nova".data)] : List Path).Nodup :=
  ⟨rfl, by decide⟩

/-- C2 amended: the matcher's output is sorted in ascending
lexicographic order but is not deduplicated — it is the sorted multiset
of resolved bases, so it depends only on the multiset of qualifying
volume sources (it is invariant under permutation of the descriptor's
`volumes` list), not on their order. -/
theorem c2_sorted_multiset :
    (∀ (pfx : Path) (config : JValue) (l : List Path),
        matchConfigVolumes pfx config = .ok l → l.Sorted PathLe) ∧
    (∀ (pfx : Path) (vols1 vols2 : List JValue) (l1 l2 : List Path),
        vols1.Perm vols2 →
        matchConfigVolumes pfx (.obj [(("volumes".data), .arr vols1)]) = .ok l1 →
        matchConfigVolumes pfx (.obj [(("volumes".data), .arr vols2)]) = .ok l2 →
        l1 = l2) := by
  constructor
  · intro pfx config l h
    cases config with
    | obj fields =>
      rw [matchConfigVolumes] at h
      exact matchVolumesValue_ok_sorted pfx _ l h
    | null => cases h
    | bool b => cases h
    | num n => cases h
    | str s => cases h
    | arr a => cases h
  · intro pfx vols1 vols2 l1 l2 hperm h1 h2
    have hv1 : matchVolumesValue pfx (.arr vols1) = .ok l1 := h1
    have hv2 : matchVolumesValue pfx (.arr vols2) = .ok l2 := h2
    rw [matchVolumesValue] at hv1 hv2
    simp only [pyIter] at hv1 hv2
    cases hres1 : resolveVolumes pfx vols1 with
    | err e => simp only [hres1] at hv1; cases hv1
    | ok bases1 =>
      cases hres2 : resolveVolumes pfx vols2 with
      | err e => simp only [hres2] at hv2; cases hv2
      | ok bases2 =>
        simp only [hres1] at hv1; simp only [hres2] at hv2
        cases hv1; cases hv2
        have e1 := resolveVolumes_ok_filterMap pfx vols1 bases1 hres1
        have e2 := resolveVolumes_ok_filterMap pfx vols2 bases2 hres2
        have hb : bases1.Perm bases2 := by
          rw [e1, e2]; exact hperm.filterMap (resolveOpt pfx)
        have hp : (sortPaths bases1).Perm (sortPaths bases2) :=
          ((List.perm_insertionSort PathLe bases1).trans hb).trans
            (List.perm_insertionSort PathLe bases2).symm
        exact @List.eq_of_perm_of_sorted Path PathLe ⟨fun a b => pathLe_antisymm a b⟩ _ _ hp
          (@List.sorted_insertionSort Path PathLe _ ⟨pathLe_total⟩
            ⟨fun a b c => pathLe_trans a b c⟩ bases1)
          (@List.sorted_insertionSort Path PathLe _ ⟨pathLe_total⟩
            ⟨fun a b c => pathLe_trans a b c⟩ bases2)

/-- Witness for C2's amended statement: the duplicated output of the
counterexample configuration is sorted, and swapping the two volumes
yields the same output. -/
theorem c2_sorted_multiset_witness :
    ([("/var/lib/config-data/nova".data),
      ("/var/lib/config-data/nova".data)] : List Path).Sorted PathLe :=
  c2_sorted_multiset.1 ("/var/lib/config-data".data)
    (.obj [(("volumes".data),
      .arr [.str ("/var/lib/config-data/nova/a:/x".data),
            .str ("/var/lib/config-data/nova/b:/y".data)])])
    [("/var/lib/config-data/nova".data), ("/var/lib/config-data/nova".data)] rfl

end ContainerConfigHash

namespace ContainerConfigHash

/-- C6 counterexample: a `volumes` field that is present but is not a
sequence does not produce the descriptor-parsing `fail_json` error.  A
JSON string value is simply iterated character by character and yields
no error at all, and a JSON number aborts with an uncaught `TypeError`
rather than with the error naming the volume-root and descriptor. -/
theorem c6_counterexample :
    matchConfigVolumes ("/var/lib/config-data".data)
        (.obj [(("volumes".data), .str ("abc".data))]) = .ok [] ∧
    matchConfigVolumes ("/var/lib/config-data".data)
        (.obj [(("volumes".data), .num 3)]) = .err (.raised .typeError) :=
  ⟨rfl, rfl⟩

/-- C6 amended: the fatal descriptor-parsing error naming the
volume-root and the offending descriptor content is raised exactly when
the descriptor itself is not a JSON object (fetching the `volumes`
field raises the caught `AttributeError`); a `volumes` field that is
present but not a sequence escapes that guard: a non-iterable value
such as a number aborts instead with an uncaught `TypeError`. -/
theorem c6_amended :
    (∀ (pfx : Path) (config : JValue),
        (∀ fields, config ≠ .obj fields) →
        matchConfigVolumes pfx config = .err (.errorFetchingVolumes pfx config)) ∧
    (∀ (pfx : Path) (fields : List (Path × JValue)) (n : Int),
        assocGetD fields ("volumes".data) (.arr []) = .num n →
        matchConfigVolumes pfx (.obj fields) = .err (.raised .typeError)) := by
  constructor
  · intro pfx config hne
    cases config with
    | obj fields => exact absurd rfl (hne fields)
    | null => rfl
    | bool b => rfl
    | num n => rfl
    | str s => rfl
    | arr a => rfl
  · intro pfx fields n h
    show matchVolumesValue pfx (assocGetD fields ("volumes".data) (.arr []))
      = .err (.raised .typeError)
    rw [h]
    rfl

/-- Witness for C6's amended statement: a descriptor parsed as a bare
JSON array triggers the `fail_json` naming the volume-root and content,
and a numeric `volumes` field triggers the uncaught `TypeError`. -/
theorem c6_amended_witness :
    matchConfigVolumes ("/var/lib/config-data".data) (.arr [])
        = .err (.errorFetchingVolumes ("/var/lib/config-data".data) (.arr [])) ∧
    matchConfigVolumes ("/var/lib/config-data".data)
        (.obj [(("volumes".data), .num 3)]) = .err (.raised .typeError) :=
  ⟨c6_amended.1 ("/var/lib/config-data".data) (.arr [])
      (fun fields h => by cases h),
    c6_amended.2 ("/var/lib/config-data".data) [(("volumes".data), .num 3)] 3 rfl⟩

/-- C8: every discovered descriptor whose basename with the extension
stripped begins with `hashed-` is removed — idempotently, removing an
already-absent file is a no-op — without being read: the outcome is the
same for every parsed content, the `changed` flag is not touched, and
the matcher/aggregator are never reached. -/
theorem c8_legacy_cleanup :
    (∀ (pfx : Path) (digests : Path → Option Path) (fileExists : Path → Bool)
        (path : Path) (parsed : JValue),
        pyStartswith (splitextRoot (pyBasename path)) ("hashed-".data) = true →
        processOne pfx digests fileExists path parsed
          = .ok ⟨false, removeFileEffects fileExists path, none⟩) ∧
    (∀ (fileExists : Path → Bool) (path : Path),
        fileExists path = false → removeFileEffects fileExists path = []) := by
  constructor
  · intro pfx digests fileExists path parsed h
    rw [processOne, if_pos h]
  · intro fileExists path h
    rw [removeFileEffects, if_neg]
    simp [h]

/-- Witness for C8: a concrete `hashed-` descriptor is removed whatever
its content, and removing it when absent is a no-op. -/
theorem c8_legacy_cleanup_witness :
    processOne ("/var/lib/config-data".data) (fun _ => none) (fun _ => false)
        ("/var/lib/edpm-config/container-startup-config/hashed-nova.json".data)
        (.num 42)
      = .ok ⟨false,
          removeFileEffects (fun _ => false)
            ("/var/lib/edpm-config/container-startup-config/hashed-nova.json".data),
          none⟩ ∧
    removeFileEffects (fun _ => false)
        ("/var/lib/edpm-config/container-startup-config/hashed-nova.json".data) = [] :=
  ⟨c8_legacy_cleanup.1 ("/var/lib/config-data".data) (fun _ => none) (fun _ => false)
      ("/var/lib/edpm-config/container-startup-config/hashed-nova.json".data)
      (.num 42) (by decide),
    c8_legacy_cleanup.2 (fun _ => false)
      ("/var/lib/edpm-config/container-startup-config/hashed-nova.json".data) rfl⟩

end ContainerConfigHash

namespace ContainerConfigHash

theorem envKey_ne_volumesKey : ("environment".data : Path) ≠ ("volumes".data) := by decide

/-- After a successful `setEnvHashFields`, the stored hash reads back as
the assigned string and the `volumes` binding is untouched. -/
theorem setEnvHashFields_ok (fields newFields : List (Path × JValue)) (h : Path)
    (hset : setEnvHashFields fields h = .ok newFields) :
    readOldHash newFields = .ok (.str h) ∧
    assocGet newFields ("volumes".data) = assocGet fields ("volumes".data) := by
  rw [setEnvHashFields] at hset
  cases hget : assocGet fields ("environment".data) with
  | none =>
    rw [hget] at hset
    cases hset
    constructor
    · rw [readOldHash, assocGet_assocSet_self]
      simp [assocGetD, assocGet]
    · exact assocGet_assocSet_ne _ _ _ _ envKey_ne_volumesKey
  | some v =>
    cases v with
    | obj envFields =>
      rw [hget] at hset
      cases hset
      constructor
      · rw [readOldHash, assocGet_assocSet_self]
        simp [assocGetD, assocGet_assocSet_self]
      · exact assocGet_assocSet_ne _ _ _ _ envKey_ne_volumesKey
    | null => rw [hget] at hset; cases hset
    | bool b => rw [hget] at hset; cases hset
    | num n => rw [hget] at hset; cases hset
    | str s => rw [hget] at hset; cases hset
    | arr a => rw [hget] at hset; cases hset

/-- The matcher reads only the `volumes` binding of the descriptor. -/
theorem matchConfigVolumes_congr (pfx : Path) (f1 f2 : List (Path × JValue))
    (h : assocGet f1 ("volumes".data) = assocGet f2 ("volumes".data)) :
    matchConfigVolumes pfx (.obj f1) = matchConfigVolumes pfx (.obj f2) := by
  show matchVolumesValue pfx (assocGetD f1 ("volumes".data) (.arr []))
    = matchVolumesValue pfx (assocGetD f2 ("volumes".data) (.arr []))
  rw [assocGetD, assocGetD, h]

theorem jEqStr_self (s : Path) : jEqStr s (.str s) = true := by
  simp [jEqStr]

end ContainerConfigHash

namespace ContainerConfigHash

/-- C7: when the stored `EDPM_CONFIG_HASH` already equals the freshly
computed non-empty aggregate, the descriptor is left alone (no mutation,
`changed` not set); and the reconciliation is idempotent: re-processing
the descriptor a successful iteration leaves behind — with the same
digest files — performs no mutation and reports no change. -/
theorem c7_no_spurious_update :
    (∀ (pfx : Path) (digests : Path → Option Path) (path : Path)
        (fields : List (Path × JValue)) (vols : List Path) (h : Path),
        matchConfigVolumes pfx (.obj fields) = .ok vols →
        joinDash (pyFilterNone (vols.map (getConfigHash digests))) = h →
        h ≠ [] →
        readOldHash fields = .ok (.str h) →
        processActive pfx digests path (.obj fields)
          = .ok ⟨false, [], some (.obj fields)⟩) ∧
    (∀ (pfx : Path) (digests : Path → Option Path) (path : Path) (parsed : JValue)
        (stepOut : StepOut) (d' : JValue),
        processActive pfx digests path parsed = .ok stepOut →
        stepOut.newConfig = some d' →
        processActive pfx digests path d' = .ok ⟨false, [], some d'⟩) := by
  constructor
  · intro pfx digests path fields vols h hm hj _hne hold
    simp only [processActive, hm, hold, filterObjectTruthy, if_true]
    rw [hj, jEqStr_self]
    simp
  · intro pfx digests path parsed stepOut d' hok hnew
    cases parsed with
    | obj fields =>
      cases hm : matchConfigVolumes pfx (.obj fields) with
      | err e => simp only [processActive, hm] at hok; cases hok
      | ok vols =>
        cases hold : readOldHash fields with
        | err e => simp only [processActive, hm, hold] at hok; cases hok
        | ok old =>
          simp only [processActive, hm, hold, filterObjectTruthy, if_true] at hok
          by_cases heq :
              jEqStr (joinDash (pyFilterNone (vols.map (getConfigHash digests)))) old = true
          · rw [if_pos heq] at hok
            cases hok
            cases hnew
            simp only [processActive, hm, hold, filterObjectTruthy, if_true]
            rw [if_pos heq]
          · rw [if_neg heq] at hok
            cases hset : setEnvHashFields fields
                (joinDash (pyFilterNone (vols.map (getConfigHash digests)))) with
            | err e => rw [hset] at hok; cases hok
            | ok newFields =>
              rw [hset] at hok
              cases hok
              cases hnew
              obtain ⟨hold', hvol⟩ := setEnvHashFields_ok fields newFields _ hset
              have hm' : matchConfigVolumes pfx (.obj newFields) = .ok vols := by
                rw [matchConfigVolumes_congr pfx newFields fields hvol, hm]
              simp only [processActive, hm', hold', filterObjectTruthy, if_true]
              rw [jEqStr_self]
              simp
    | null => simp [processActive] at hok
    | bool b => simp [processActive] at hok
    | num n => simp [processActive] at hok
    | str s => simp [processActive] at hok
    | arr a => simp [processActive] at hok

end ContainerConfigHash

namespace ContainerConfigHash

/-- C3: the claim says that with no retained digest values no update is
attempted; but `filter(None, config_hashes)` is a Python-3 filter
object, which is always truthy, so the emptiness guard is dead: with no
retained digests and a non-empty stored hash the module rewrites the
descriptor, resetting `EDPM_CONFIG_HASH` to the empty string and
setting `changed`. -/
theorem c3_filter_truthiness_bug :
    matchConfigVolumes cdRoot staleHashDesc = .ok [] ∧
    pyFilterNone (([] : List Path).map (getConfigHash (fun _ => none))) = [] ∧
    processOne cdRoot (fun _ => none) (fun _ => true) novaJsonPath staleHashDesc
      = .ok ⟨true, [.write novaJsonPath staleHashRewritten 2,
                    .chmod novaJsonPath 384], some staleHashRewritten⟩ :=
  ⟨rfl, rfl, rfl⟩

/-- C4: the module declares `supports_check_mode=True` and documents a
`check_mode` option, but `ContainerConfigHashManager` never reads
either: a run with the check-mode flag set still performs the write and
chmod mutations and reports `changed`; the whole run is independent of
the flag. -/
theorem c4_check_mode_not_honored :
    argsCheckModeOn.checkMode = true ∧
    runManager argsCheckModeOn novaDigests (fun _ => true) [(novaJsonPath, novaDesc)]
      = ⟨true, [.write novaJsonPath novaUpdated 2, .chmod novaJsonPath 384], none⟩ ∧
    argsCheckModeOff.checkMode = false ∧
    runManager argsCheckModeOn novaDigests (fun _ => true) [(novaJsonPath, novaDesc)]
      = runManager argsCheckModeOff novaDigests (fun _ => true) [(novaJsonPath, novaDesc)] :=
  ⟨rfl, rfl, rfl, rfl⟩

end ContainerConfigHash

namespace ContainerConfigHash

/-- Witness for C7 at a concrete descriptor whose stored hash matches
the computed aggregate `h1`. -/
theorem c7_no_spurious_update_witness :
    processActive ("/p".data)
        (fun p => if p = ("/p/a.md5sum".data) then some ("h1".data) else none)
        novaJsonPath
        (.obj [(("volumes".data), .arr [.str ("/p/a:ro".data)]),
               (("environment".data), .obj [(("EDPM_CONFIG_HASH".data), .str ("h1".data))])])
      = .ok ⟨false, [], some (.obj [(("volumes".data), .arr [.str ("/p/a:ro".data)]),
               (("environment".data),
                .obj [(("EDPM_CONFIG_HASH".data), .str ("h1".data))])])⟩ :=
  c7_no_spurious_update.1 ("/p".data)
    (fun p => if p = ("/p/a.md5sum".data) then some ("h1".data) else none)
    novaJsonPath
    [(("volumes".data), .arr [.str ("/p/a:ro".data)]),
     (("environment".data), .obj [(("EDPM_CONFIG_HASH".data), .str ("h1".data))])]
    [("/p/a".data)] ("h1".data) rfl rfl (by decide) rfl

/-- C9: for an active descriptor whose non-empty aggregate differs from
the stored hash, the reconciler sets `environment.EDPM_CONFIG_HASH` to
the aggregate — creating the `environment` map when absent — rewrites
the whole descriptor to its path as JSON with `indent=2`, chmods it to
`0o600`, and sets `changed`; concretely, the descriptor with volume
`/var/lib/config-data/nova:/etc/nova:ro` and no `environment`, with
digest file content `"abc123\n"`, is rewritten to carry
`environment.EDPM_CONFIG_HASH = "abc123"` with `changed = true`. -/
theorem c9_difference_rewrites :
    (∀ (pfx : Path) (digests : Path → Option Path) (path : Path)
        (fields : List (Path × JValue)) (vols : List Path) (h : Path) (old : JValue)
        (newFields : List (Path × JValue)),
        matchConfigVolumes pfx (.obj fields) = .ok vols →
        joinDash (pyFilterNone (vols.map (getConfigHash digests))) = h →
        h ≠ [] →
        readOldHash fields = .ok old →
        jEqStr h old = false →
        setEnvHashFields fields h = .ok newFields →
        processActive pfx digests path (.obj fields)
          = .ok ⟨true, [.write path (.obj newFields) 2, .chmod path 384],
                 some (.obj newFields)⟩) ∧
    (∀ (fields : List (Path × JValue)) (h : Path),
        assocGet fields ("environment".data) = none →
        setEnvHashFields fields h
          = .ok (assocSet fields ("environment".data)
              (.obj [(("EDPM_CONFIG_HASH".data), .str h)]))) ∧
    processOne cdRoot novaDigests (fun _ => true) novaJsonPath novaDesc
      = .ok ⟨true, [.write novaJsonPath novaUpdated 2, .chmod novaJsonPath 384],
             some novaUpdated⟩ := by
  refine ⟨?_, ?_, rfl⟩
  · intro pfx digests path fields vols h old newFields hm hj _hne hold hne hset
    simp only [processActive, hm, hold, filterObjectTruthy, if_true]
    rw [hj, hne]
    simp only [Bool.false_eq_true, if_false, hset, updateContainerConfigEffects]
  · intro fields h hnone
    rw [setEnvHashFields, hnone]

/-- Witness for C9 at the end-to-end scenario of the claim. -/
theorem c9_difference_rewrites_witness :
    processActive cdRoot novaDigests novaJsonPath novaDesc
      = .ok ⟨true, [.write novaJsonPath novaUpdated 2, .chmod novaJsonPath 384],
             some novaUpdated⟩ :=
  c9_difference_rewrites.1 cdRoot novaDigests novaJsonPath
    [(("volumes".data), .arr [.str ("/var/lib/config-data/nova:/etc/nova:ro".data)])]
    [("/var/lib/config-data/nova".data)] ("abc123".data) (.str [])
    [(("volumes".data), .arr [.str ("/var/lib/config-data/nova:/etc/nova:ro".data)]),
     (("environment".data), .obj [(("EDPM_CONFIG_HASH".data), .str ("abc123".data))])]
    rfl rfl (by decide) rfl rfl rfl

end ContainerConfigHash

namespace ContainerConfigHash

theorem stripNl_all_newline (s : Path) (h : ∀ c ∈ s, c = '\n') : stripNl s = [] := by
  have : s.dropWhile (fun c => c = '\n') = [] := by
    rw [List.dropWhile_eq_nil_iff]
    intro x hx
    simp [h x hx]
  simp [stripNl, this]

theorem stripNl_cons_newline (s : Path) : stripNl ('\n' :: s) = stripNl s := by
  simp [stripNl, List.dropWhile_cons]

theorem stripNl_append_newline (s : Path) : stripNl (s ++ ['\n']) = stripNl s := by
  rw [stripNl, stripNl, List.dropWhile_append]
  by_cases ht : (s.dropWhile (fun c => c = '\n')).isEmpty = true
  · rw [if_pos ht]
    have h0 : s.dropWhile (fun c => c = '\n') = [] := by
      simpa [List.isEmpty_iff] using ht
    rw [h0]
    rfl
  · rw [if_neg ht]
    simp [List.reverse_append, List.dropWhile_cons]

/-- C10: a digest file whose content is only newlines (or empty)
contributes nothing to the aggregate — exactly as if the file were
absent — and the trim drops leading as well as trailing newlines. -/
theorem c10_newline_digest_dropped :
    (∀ (s : Path), (∀ c ∈ s, c = '\n') → stripNl s = []) ∧
    (∀ (s : Path), stripNl ('\n' :: s) = stripNl s) ∧
    (∀ (s : Path), stripNl (s ++ ['\n']) = stripNl s) ∧
    (∀ (digests : Path → Option Path) (base content : Path) (vols : List Path),
        digests (base ++ (".md5sum".data)) = some content →
        (∀ c ∈ content, c = '\n') →
        pyFilterNone (vols.map (getConfigHash digests))
          = pyFilterNone (vols.map (getConfigHash
              (fun p => if p = base ++ (".md5sum".data) then none else digests p)))) := by
  refine ⟨stripNl_all_newline, stripNl_cons_newline, stripNl_append_newline, ?_⟩
  intro digests base content vols hdig hnl
  induction vols with
  | nil => rfl
  | cons v rest ih =>
    simp only [List.map_cons, pyFilterNone, List.filterMap_cons]
    by_cases hv : v ++ (".md5sum".data) = base ++ (".md5sum".data)
    · have h1 : getConfigHash digests v = some [] := by
        rw [getConfigHash, hv]
        simp only [hdig]
        rw [stripNl_all_newline content hnl]
      have h2 : getConfigHash
          (fun p => if p = base ++ (".md5sum".data) then none else digests p) v = none := by
        rw [getConfigHash, hv]
        simp
      rw [h1, h2]
      simpa [pyFilterNone] using ih
    · have h2 : getConfigHash
          (fun p => if p = base ++ (".md5sum".data) then none else digests p) v
          = getConfigHash digests v := by
        rw [getConfigHash, getConfigHash]
        simp [hv]
      rw [h2]
      cases hg : getConfigHash digests v with
      | none =>
        simp only [hg]
        simpa [pyFilterNone] using ih
      | some s =>
        simp only [hg]
        by_cases hs : s = []
        · subst hs
          simpa [pyFilterNone] using ih
        · simp only [hs, if_neg, ite_false]
          simp only [pyFilterNone] at ih
          simp [hs, ih]

/-- Witness for C10: a digest file containing only `"\n\n"` is dropped
exactly like a missing one. -/
theorem c10_newline_digest_dropped_witness :
    pyFilterNone ([("/p/a".data)].map (getConfigHash
        (fun p => if p = ("/p/a.md5sum".data) then some ("\n\n".data) else none)))
      = pyFilterNone ([("/p/a".data)].map (getConfigHash
          (fun p => if p = ("/p/a.md5sum".data)
            then none
            else (fun q => if q = ("/p/a.md5sum".data) then some ("\n\n".data) else none) p))) :=
  c10_newline_digest_dropped.2.2.2
    (fun p => if p = ("/p/a.md5sum".data) then some ("\n\n".data) else none)
    ("/p/a".data) ("\n\n".data) [("/p/a".data)] (by decide) (by decide)
end ContainerConfigHash
